import Mathlib

/-!
# Smart Rate Limiting Service — verification development

Shallow embedding of the rate-limiting decision engine from
`src/middleware/rateLimitMiddleware.js` (the `RateLimiter` class with
local cache, slow-start, analytics, audit logging and request cost),
its configuration (`RATE_LIMITS`, `GEO_LIMITS`) and the atomic Lua
bucket evaluator it sends to the store.

JavaScript numbers are modelled as exact rationals (`ℚ`); wall-clock
milliseconds and seconds as integers (`ℤ`).  The shared store is an
association list from keys to `(value, ttl)` entries; `setex`
overwrites.  Driver failures are injected through a `DriverFail`
record with one flag per call site, mirroring the fixed sequence of
store calls `checkLimit` can make.
-/

namespace RateLimiterModel

/-- JS `parseInt` on a numeric value: truncation toward zero. -/
def jsToInt (v : ℚ) : ℤ :=
  if 0 ≤ v then ⌊v⌋ else -⌊-v⌋

/-- JS `String.prototype.includes`: substring containment. -/
def jsIncludes (s pat : String) : Bool :=
  decide (pat.toList <:+: s.toList)

/-- One stored value in the shared store, together with the TTL it was
last written with (`setex(key, ttl, value)`). -/
structure StoreEntry where
  value : ℚ
  ttl : ℤ
  deriving DecidableEq, Repr

/-- The shared key-value store, as an association list (later bindings
shadow earlier ones; `storeSetex` removes the old binding). -/
def Store := List (String × StoreEntry)

instance : DecidableEq Store := by
  unfold Store; infer_instance

instance : Repr Store := by
  unfold Store; infer_instance

/-- Model of `GET key`: the parsed numeric value, or `none` when absent. -/
def storeGet (s : Store) (k : String) : Option ℚ :=
  (s.find? (fun p => p.1 = k)).map (fun p => p.2.value)

/-- The TTL the key was last written with, or `none` when absent. -/
def storeTTL (s : Store) (k : String) : Option ℤ :=
  (s.find? (fun p => p.1 = k)).map (fun p => p.2.ttl)

/-- Model of `SETEX key ttl value`. -/
def storeSetex (s : Store) (k : String) (ttl : ℤ) (v : ℚ) : Store :=
  (k, ⟨v, ttl⟩) :: s.filter (fun p => ¬ p.1 = k)

/-- Per-endpoint rate-limit policy (`src/unnamed/part_001`,
`configuration.js`): `{ window, max, burst }`. -/
structure EndpointConfig where
  window : ℤ
  max : ℤ
  burst : ℤ
  deriving DecidableEq, Repr

/-- The table `RATE_LIMITS` from `configuration.js`.  Note: there is no
`unlimited` key. -/
def RATE_LIMITS (tier endpoint : String) : Option EndpointConfig :=
  if tier = "free" then
    if endpoint = "/api/search" then some ⟨3600, 100, 20⟩
    else if endpoint = "/api/checkout" then some ⟨3600, 10, 2⟩
    else if endpoint = "/api/profile" then some ⟨3600, 50, 10⟩
    else none
  else if tier = "premium" then
    if endpoint = "/api/search" then some ⟨3600, 1000, 100⟩
    else if endpoint = "/api/checkout" then some ⟨3600, 100, 20⟩
    else if endpoint = "/api/profile" then some ⟨3600, 200, 40⟩
    else none
  else if tier = "enterprise" then
    if endpoint = "/api/search" then some ⟨3600, 10000, 1000⟩
    else if endpoint = "/api/checkout" then some ⟨3600, 1000, 200⟩
    else if endpoint = "/api/profile" then some ⟨3600, 1000, 200⟩
    else none
  else none

/-- Truthiness of `this.config[tier]`: the tier has a row in `RATE_LIMITS`. -/
def tierExists (tier : String) : Bool :=
  tier = "free" ∨ tier = "premium" ∨ tier = "enterprise"

/-- The table `GEO_LIMITS` from `configuration.js` (multiplier per region). -/
def GEO_LIMITS (c : String) : Option ℚ :=
  if c = "US" then some 1
  else if c = "EU" then some 1
  else if c = "CN" then some (1/2)
  else if c = "IN" then some 2
  else if c = "DEFAULT" then some 1
  else none

/-- Model of `this.geoMultipliers[countryCode] || this.geoMultipliers.DEFAULT`. -/
def geoMultiplier (c : String) : ℚ :=
  (GEO_LIMITS c).getD 1

/-- The `remaining` field of a decision: a whole-token count or the JS
`Infinity` sentinel. -/
inductive Rem
  | fin (n : ℤ)
  | unbounded
  deriving DecidableEq, Repr

/-- A decision record returned by `checkLimit`.  `cost` is `some c`
exactly for the response shapes that carry a `cost` field. -/
structure Decision where
  allowed : Bool
  remaining : Rem
  retryAfter : ℤ
  cost : Option ℚ
  deriving DecidableEq, Repr

/-- One driver operation, for counting store traffic. -/
inductive Op
  | get (k : String)
  | setex (k : String) (ttl : ℤ) (v : ℚ)
  | evalScript
  deriving DecidableEq, Repr

/-- The atomic Lua script sent by `checkLimit` (lines 427–457):
refill, admit-or-deny with cost, persist all three keys with
TTL = `window`, and return
`(1_if_allowed, floor(max(0, tokens_after)), count_after)`. -/
def luaRateLimit (store : Store) (tokenKey lastRefillKey countKey : String)
    (now adjustedMax adjustedBurst window : ℤ) (cost : ℚ) :
    (ℤ × ℤ × ℚ) × Store :=
  let tokens0 : ℚ := (storeGet store tokenKey).getD (adjustedBurst : ℚ)
  let lastRefill : ℚ := (storeGet store lastRefillKey).getD (now : ℚ)
  let count : ℚ := (storeGet store countKey).getD 0
  let timePassed : ℚ := (now : ℚ) - lastRefill
  let refillAmount : ℚ := timePassed * (adjustedMax : ℚ) / (window : ℚ)
  let tokens1 : ℚ := min (adjustedBurst : ℚ) (tokens0 + refillAmount)
  let allowed : Bool := decide (cost ≤ tokens1 ∧ count < (adjustedMax : ℚ))
  let tokens2 : ℚ := if allowed then tokens1 - cost else tokens1
  let count2 : ℚ := if allowed then count + cost else count
  let store1 := storeSetex store tokenKey window tokens2
  let store2 := storeSetex store1 lastRefillKey window (now : ℚ)
  let store3 := storeSetex store2 countKey window count2
  ((if allowed then 1 else 0, ⌊max 0 tokens2⌋, count2), store3)

/-- A local-cache entry: the cached decision and its expiry instant in
milliseconds (`Date.now() + cacheTTL` at insertion). -/
structure CacheEntry where
  value : Decision
  ttl : ℤ
  deriving DecidableEq, Repr

/-- One audit-log entry: the ISO timestamp is modelled by the
millisecond clock at append time, spread over the event fields used by
the engine. -/
structure SecurityEvent where
  timestamp : ℤ
  type : String
  userId : String
  endpoint : String
  deriving DecidableEq, Repr

/-- One analytics bucket (`analytics.hits` value). -/
structure AnalyticsStat where
  endpoint : String
  tier : String
  countryCode : String
  allowedCount : ℕ
  deniedCount : ℕ
  totalRequests : ℕ
  deriving DecidableEq, Repr

/-- JS `Map.set`: replace in place when the key exists, else append. -/
def mapSet {α : Type} (m : List (String × α)) (k : String) (v : α) :
    List (String × α) :=
  if (m.find? (fun p => p.1 = k)).isSome then
    m.map (fun p => if p.1 = k then (k, v) else p)
  else
    m ++ [(k, v)]

/-- JS `Map.get`. -/
def mapGet {α : Type} (m : List (String × α)) (k : String) : Option α :=
  (m.find? (fun p => p.1 = k)).map (fun p => p.2)

/-- The process-local mutable state of a `RateLimiter` instance
(constructor, lines 157–189). -/
structure RLState where
  analyticsHits : List (String × AnalyticsStat)
  loggingEnabled : Bool
  events : List SecurityEvent
  maxEvents : ℕ
  ssEnabled : Bool
  ssDuration : ℤ
  ssStages : List ℚ
  localCache : List (String × CacheEntry)
  cacheEnabled : Bool
  cacheTTL : ℤ
  deriving DecidableEq, Repr

/-- Model of `getFromCache(key)` (lines 192–201): miss when disabled, absent or
expired; an expired entry is deleted on probe. -/
def getFromCache (st : RLState) (nowMs : ℤ) (key : String) :
    Option Decision × RLState :=
  if ¬ st.cacheEnabled then (none, st)
  else
    match mapGet st.localCache key with
    | none => (none, st)
    | some cached =>
        if cached.ttl < nowMs then
          (none, { st with
            localCache := st.localCache.filter (fun p => ¬ p.1 = key) })
        else
          (some cached.value, st)

/-- Model of `setInCache(key, value)` (lines 203–209). -/
def setInCache (st : RLState) (nowMs : ℤ) (key : String) (value : Decision) :
    RLState :=
  if ¬ st.cacheEnabled then st
  else { st with
    localCache := mapSet st.localCache key ⟨value, nowMs + st.cacheTTL⟩ }

/-- Model of `clearUserCache(userId)` (lines 212–218): delete every cache key
that `includes` the user id. -/
def clearUserCache (st : RLState) (userId : String) : RLState :=
  { st with
    localCache := st.localCache.filter (fun p => ¬ jsIncludes p.1 userId) }

/-- Model of `logSecurityEvent(event)` (lines 221–235): gated by
`logging.enabled`; push, then shift once when over `maxEvents`. -/
def logSecurityEvent (st : RLState) (event : SecurityEvent) : RLState :=
  if ¬ st.loggingEnabled then st
  else
    let events1 := st.events ++ [event]
    { st with
      events := if st.maxEvents < events1.length then events1.drop 1
                else events1 }

/-- A `getSecurityLog` filter (lines 352–370); `startTime` compares the
modelled timestamps. -/
structure LogFilter where
  userId : Option String
  type : Option String
  startTime : Option ℤ
  deriving DecidableEq, Repr

/-- Model of `getSecurityLog(filter)` (lines 352–370). -/
def getSecurityLog (st : RLState) (f : LogFilter) : List SecurityEvent :=
  let logs := st.events
  let logs := match f.userId with
    | none => logs
    | some u => logs.filter (fun e => e.userId = u)
  let logs := match f.type with
    | none => logs
    | some t => logs.filter (fun e => e.type = t)
  let logs := match f.startTime with
    | none => logs
    | some t => logs.filter (fun e => decide (t ≤ e.timestamp))
  logs

/-- Model of `recordAnalyticsHit(userId, endpoint, tier, countryCode, allowed)`
(lines 238–259). -/
def recordAnalyticsHit (st : RLState) (_userId endpoint tier countryCode :
    String) (allowed : Bool) : RLState :=
  let key := endpoint ++ ":" ++ tier ++ ":" ++ countryCode
  let stat := (mapGet st.analyticsHits key).getD
    ⟨endpoint, tier, countryCode, 0, 0, 0⟩
  let stat1 : AnalyticsStat :=
    { stat with
      totalRequests := stat.totalRequests + 1
      allowedCount := if allowed then stat.allowedCount + 1
                      else stat.allowedCount
      deniedCount := if allowed then stat.deniedCount
                     else stat.deniedCount + 1 }
  { st with analyticsHits := mapSet st.analyticsHits key stat1 }

/-- Outcome of the single `redis.eval` call: the script runs, the
transport throws, or the call resolves with a null result. -/
inductive EvalBehavior
  | ok
  | err
  | nullResult
  deriving DecidableEq, Repr

/-- Failure injection for the driver, one flag per call site in
`checkLimit`'s fixed call sequence: the slow-start `get`/`setex`, the
`eval`, the post-denial token re-read, and the fallback reads/writes. -/
structure DriverFail where
  ssGet : Bool
  ssSet : Bool
  evalB : EvalBehavior
  denyGet : Bool
  fbGet : Bool
  fbSet : Bool
  deriving DecidableEq, Repr

/-- The fully reliable driver. -/
def noFail : DriverFail := ⟨false, false, .ok, false, false, false⟩

/-- The stage-selection loop of `getSlowStartMultiplier`
(lines 294–301): starting at index `i` with `r` iterations left,
advance while `userAge >= stageDuration * (i + 1)`, and return the
last advanced-to stage. -/
def ssStageGo (userAge sd : ℚ) (i : ℕ) : ℕ → ℕ
  | 0 => i
  | r + 1 =>
      if sd * ((i : ℚ) + 1) ≤ userAge then ssStageGo userAge sd (i + 1) r
      else i

/-- The slow-start marker key `slowstart:{userId}:{endpoint}`. -/
def slowStartKey (userId endpoint : String) : String :=
  "slowstart:" ++ userId ++ ":" ++ endpoint

/-- Model of `getSlowStartMultiplier(userId, endpoint)` (lines 262–309).
Returns the multiplier, the updated engine state (a possible
`new_user` audit event), the updated store (a possible marker write),
and the driver operations attempted.  A store error anywhere inside
the `try` yields 1.0. -/
def getSlowStartMultiplier (st : RLState) (store : Store)
    (fail : DriverFail) (nowMs : ℤ) (userId endpoint : String) :
    ℚ × RLState × Store × List Op :=
  if ¬ st.ssEnabled then (1, st, store, [])
  else
    let userKey := slowStartKey userId endpoint
    if fail.ssGet then (1, st, store, [.get userKey])
    else
      match storeGet store userKey with
      | none =>
          let now : ℤ := nowMs / 1000
          if fail.ssSet then
            (1, st, store, [.get userKey, .setex userKey st.ssDuration now])
          else
            let store1 := storeSetex store userKey st.ssDuration (now : ℚ)
            let st1 := logSecurityEvent st
              ⟨nowMs, "new_user", userId, endpoint⟩
            (st.ssStages.headD 1, st1, store1,
              [.get userKey, .setex userKey st.ssDuration now])
      | some createdAt =>
          let now : ℤ := nowMs / 1000
          let userAge : ℚ := (now : ℚ) - (jsToInt createdAt : ℚ)
          let stageDuration : ℚ :=
            (st.ssDuration : ℚ) / (st.ssStages.length : ℚ)
          let stage := ssStageGo userAge stageDuration 0 st.ssStages.length
          let stage1 := min stage (st.ssStages.length - 1)
          (st.ssStages.getD stage1 1, st, store, [.get userKey])

/-- Model of `parseFloat(str) || default`: absent (`NaN`) or zero
values fall back to the default (the JS `||`-on-zero quirk). -/
def jsParseFloatOr (v : Option ℚ) (dflt : ℚ) : ℚ :=
  match v with
  | none => dflt
  | some x => if x = 0 then dflt else x

/-- Model of `parseInt(str) || default`: absent (`NaN`) or zero values
fall back to the default. -/
def jsParseIntOr (v : Option ℚ) (dflt : ℤ) : ℤ :=
  match v with
  | none => dflt
  | some x => if jsToInt x = 0 then dflt else jsToInt x

/-- Model of `checkLimitFallback(...)` (lines 546–628): the non-atomic
evaluator.  Note the JS read quirks: `parseFloat(x) || adjustedBurst`
turns a stored `0` into a full bucket, `parseInt(x) || now` turns a
stored `0` into `now`; the denial deficit is measured against 1 token,
not `requestCost`; no analytics and no audit events are produced. -/
def checkLimitFallback (st : RLState) (store : Store) (fail : DriverFail)
    (tokenKey lastRefillKey countKey : String)
    (now window adjustedMax adjustedBurst : ℤ) (requestCost : ℚ) :
    Option Decision × RLState × Store × List Op :=
  let readOps : List Op := [.get tokenKey, .get lastRefillKey, .get countKey]
  if fail.fbGet then
    (some ⟨true, .unbounded, 0, none⟩, st, store, readOps)
  else
    let tokens0 : ℚ :=
      jsParseFloatOr (storeGet store tokenKey) (adjustedBurst : ℚ)
    let lastRefill : ℤ :=
      jsParseIntOr (storeGet store lastRefillKey) now
    let count : ℤ :=
      jsParseIntOr (storeGet store countKey) 0
    let timePassed : ℚ := (now : ℚ) - (lastRefill : ℚ)
    let refillAmount : ℚ := timePassed * (adjustedMax : ℚ) / (window : ℚ)
    let tokens1 : ℚ := min (adjustedBurst : ℚ) (tokens0 + refillAmount)
    if requestCost ≤ tokens1 ∧ (count : ℚ) < (adjustedMax : ℚ) then
      let tokens2 := tokens1 - requestCost
      let count2 : ℚ := (count : ℚ) + requestCost
      let writeOps : List Op :=
        [.setex tokenKey window tokens2, .setex lastRefillKey window now,
         .setex countKey window count2]
      let store1 :=
        if fail.fbSet then store
        else
          storeSetex (storeSetex (storeSetex store tokenKey window tokens2)
            lastRefillKey window (now : ℚ)) countKey window count2
      (some ⟨true, .fin (max 0 ⌊tokens2⌋), 0, none⟩, st, store1,
        readOps ++ writeOps)
    else
      let retryAfter : ℤ :=
        if tokens1 < 1 then
          ⌈(1 - tokens1) * ((window : ℚ) / (adjustedMax : ℚ))⌉
        else 0
      (some ⟨false, .fin 0, max retryAfter 1, none⟩, st, store, readOps)

/-- The outcome of one `checkLimit` call: the returned value (`none`
models the JS `undefined` return), the updated engine state, the
updated store, and the driver operations attempted in order. -/
structure CheckOut where
  dec : Option Decision
  st : RLState
  store : Store
  ops : List Op
  deriving DecidableEq, Repr

/-- The bucket key `rate:tokens:{userId}:{endpoint}`. -/
def tokenKeyOf (userId endpoint : String) : String :=
  "rate:tokens:" ++ userId ++ ":" ++ endpoint

/-- The bucket key `rate:last_refill:{userId}:{endpoint}`. -/
def lastRefillKeyOf (userId endpoint : String) : String :=
  "rate:last_refill:" ++ userId ++ ":" ++ endpoint

/-- The bucket key `rate:count:{userId}:{endpoint}`. -/
def countKeyOf (userId endpoint : String) : String :=
  "rate:count:" ++ userId ++ ":" ++ endpoint

/-- The local-cache key `check:{userId}:{endpoint}:{tier}`. -/
def cacheKeyOf (userId endpoint tier : String) : String :=
  "check:" ++ userId ++ ":" ++ endpoint ++ ":" ++ tier

/-- Model of `checkLimit(userId, endpoint, tier, countryCode, requestCost)`
(lines 372–543).  The cache is probed first (except for the
`unlimited` tier); an unknown tier is coerced to `free` *before* the
`tier === 'unlimited'` bypass test; the Lua script is the atomic path,
with `checkLimitFallback` on an `eval` transport error (including an
error on the post-denial token re-read, which sits inside the same
`try`); a null `eval` result falls off the end of the function
(`dec = none`). -/
def checkLimit (st : RLState) (store : Store) (fail : DriverFail)
    (nowMs : ℤ) (userId endpoint tier countryCode : String)
    (requestCost : ℚ) : CheckOut :=
  let cacheKey := cacheKeyOf userId endpoint tier
  let probe :=
    if tier ≠ "unlimited" then getFromCache st nowMs cacheKey
    else (none, st)
  match probe with
  | (some cached, st1) => ⟨some cached, st1, store, []⟩
  | (none, st1) =>
    let tier1 := if tierExists tier then tier else "free"
    match RATE_LIMITS tier1 endpoint with
    | none => ⟨some ⟨true, .unbounded, 0, none⟩, st1, store, []⟩
    | some endpointConfig =>
      if tier1 = "unlimited" then
        let st2 := recordAnalyticsHit st1 userId endpoint tier1 countryCode
          true
        ⟨some ⟨true, .unbounded, 0, none⟩, st2, store, []⟩
      else
        let geoMult := geoMultiplier countryCode
        let adjustedMax0 : ℤ := ⌊(endpointConfig.max : ℚ) * geoMult⌋
        let adjustedBurst0 : ℤ := ⌊(endpointConfig.burst : ℚ) * geoMult⌋
        let ssr := getSlowStartMultiplier st1 store fail nowMs userId endpoint
        let slowStartMultiplier := ssr.1
        let st2 := ssr.2.1
        let store1 := ssr.2.2.1
        let ops1 := ssr.2.2.2
        let adjustedMax : ℤ := ⌊(adjustedMax0 : ℚ) * slowStartMultiplier⌋
        let adjustedBurst : ℤ := ⌊(adjustedBurst0 : ℚ) * slowStartMultiplier⌋
        let now : ℤ := nowMs / 1000
        let window := endpointConfig.window
        let tokenKey := tokenKeyOf userId endpoint
        let lastRefillKey := lastRefillKeyOf userId endpoint
        let countKey := countKeyOf userId endpoint
        match fail.evalB with
        | .err =>
            let fb := checkLimitFallback st2 store1 fail tokenKey
              lastRefillKey countKey now window adjustedMax adjustedBurst
              requestCost
            ⟨fb.1, fb.2.1, fb.2.2.1, ops1 ++ [.evalScript] ++ fb.2.2.2⟩
        | .nullResult => ⟨none, st2, store1, ops1 ++ [.evalScript]⟩
        | .ok =>
            let er := luaRateLimit store1 tokenKey lastRefillKey countKey
              now adjustedMax adjustedBurst window requestCost
            let allowedFlag := er.1.1
            let remaining := er.1.2.1
            let store2 := er.2
            let allowed := allowedFlag = 1
            let st3 := recordAnalyticsHit st2 userId endpoint tier1
              countryCode allowed
            if allowed then
              let response : Decision :=
                ⟨true, .fin remaining, 0, some requestCost⟩
              let st4 := setInCache st3 nowMs cacheKey response
              ⟨some response, st4, store2, ops1 ++ [.evalScript]⟩
            else
              let st4 := logSecurityEvent st3
                ⟨nowMs, "rate_limit_exceeded", userId, endpoint⟩
              if fail.denyGet then
                let fb := checkLimitFallback st4 store2 fail tokenKey
                  lastRefillKey countKey now window adjustedMax
                  adjustedBurst requestCost
                ⟨fb.1, fb.2.1, fb.2.2.1,
                  ops1 ++ [.evalScript, .get tokenKey] ++ fb.2.2.2⟩
              else
                let tokens : ℚ := (storeGet store2 tokenKey).getD 0
                let retryAfter : ℤ :=
                  if tokens < requestCost then
                    ⌈(requestCost - tokens) *
                      ((window : ℚ) / (adjustedMax : ℚ))⌉
                  else 0
                ⟨some ⟨false, .fin 0, max retryAfter 1, some requestCost⟩,
                  st4, store2, ops1 ++ [.evalScript, .get tokenKey]⟩

/-! ## Helper lemmas -/

/-- Filtering out elements the predicate cannot match does not change
the first match. -/
theorem find?_filter_eq {α : Type} (l : List α) (p q : α → Bool)
    (h : ∀ a, p a = true → q a = true) :
    (l.filter q).find? p = l.find? p := by
  induction l with
  | nil => rfl
  | cons a t ih =>
      by_cases hq : q a = true
      · by_cases hp : p a = true
        · simp [List.filter, hq, List.find?, hp]
        · simp only [List.filter, hq, if_true]
          simp [List.find?, hp, ih]
      · have hp : p a = false := by
          cases hpa : p a with
          | false => rfl
          | true => exact absurd (h a hpa) hq
        simp [List.filter, hq, List.find?, hp, ih]

/-- Reading back the key just written. -/
theorem storeGet_setex_same (s : Store) (k : String) (ttl : ℤ) (v : ℚ) :
    storeGet (storeSetex s k ttl v) k = some v := by
  simp [storeGet, storeSetex, List.find?]

/-- Writing one key leaves reads of another key unchanged. -/
theorem storeGet_setex_other (s : Store) (k k1 : String) (ttl : ℤ) (v : ℚ)
    (h : k ≠ k1) : storeGet (storeSetex s k1 ttl v) k = storeGet s k := by
  have hne : ¬ k1 = k := fun hk => h hk.symm
  unfold storeGet storeSetex
  rw [List.find?_cons_of_neg _ (by simp [hne]), find?_filter_eq]
  intro a ha
  simp only [decide_eq_true_eq] at ha ⊢
  intro hk
  exact h (by rw [← ha, hk])

/-- TTL of the key just written. -/
theorem storeTTL_setex_same (s : Store) (k : String) (ttl : ℤ) (v : ℚ) :
    storeTTL (storeSetex s k ttl v) k = some ttl := by
  simp [storeTTL, storeSetex, List.find?]

/-- Writing one key leaves the TTL of another key unchanged. -/
theorem storeTTL_setex_other (s : Store) (k k1 : String) (ttl : ℤ) (v : ℚ)
    (h : k ≠ k1) : storeTTL (storeSetex s k1 ttl v) k = storeTTL s k := by
  have hne : ¬ k1 = k := fun hk => h hk.symm
  unfold storeTTL storeSetex
  rw [List.find?_cons_of_neg _ (by simp [hne]), find?_filter_eq]
  intro a ha
  simp only [decide_eq_true_eq] at ha ⊢
  intro hk
  exact h (by rw [← ha, hk])

/-- A tier with a row in `RATE_LIMITS` is not the `unlimited` tier. -/
theorem tierExists_ne_unlimited (t : String) (h : tierExists t = true) :
    t ≠ "unlimited" := by
  intro heq
  rw [heq] at h
  exact absurd h (by decide)

/-- The engine state built by the constructor with the options used in
`src/unnamed/part_002` (`loggingEnabled: true, slowStartEnabled: true,
cacheEnabled: true, cacheTTL: 1000`) and the constructor defaults. -/
def defaultState : RLState :=
  { analyticsHits := []
    loggingEnabled := true
    events := []
    maxEvents := 1000
    ssEnabled := true
    ssDuration := 86400
    ssStages := [3/10, 6/10, 1]
    localCache := []
    cacheEnabled := true
    cacheTTL := 1000 }

/-! ## Claim theorems -/

/-- C1 (code bug): calling `checkLimit` with `tier = "unlimited"` on a
known endpoint does NOT take the zero-store-operation bypass: the
`unlimited` key is absent from `RATE_LIMITS`, so the unknown-tier
coercion to `free` fires before the `tier === 'unlimited'` test and
the call performs three store operations (slow-start get and setex,
plus the atomic eval) and returns a finite `remaining`, contradicting
both the claim and the code's own bypass comment and tests. -/
theorem C1_unlimited_tier_not_bypassed :
    (checkLimit defaultState [] noFail 1000000 "alice" "/api/search"
      "unlimited" "US" 1).ops =
      [.get (slowStartKey "alice" "/api/search"),
       .setex (slowStartKey "alice" "/api/search") 86400 1000,
       .evalScript] ∧
    (checkLimit defaultState [] noFail 1000000 "alice" "/api/search"
      "unlimited" "US" 1).dec = some ⟨true, .fin 5, 0, some 1⟩ := by
  constructor <;>
  · simp [checkLimit, defaultState, noFail, getFromCache, mapGet, tierExists,
      RATE_LIMITS, geoMultiplier, GEO_LIMITS, getSlowStartMultiplier, slowStartKey,
      storeGet, storeSetex, logSecurityEvent, luaRateLimit, recordAnalyticsHit,
      setInCache, mapSet, tokenKeyOf, lastRefillKeyOf, countKeyOf, cacheKeyOf,
      List.find?, List.filter, ssStageGo, jsToInt, min_def, max_def]
    norm_num

/-- C2 (counterexample): under backward clock skew the atomic evaluator
persists a negative token value.  With stored `tokens = 1`,
`last_refill = 1000` and `now = 0` (skew of 1000 s) at
`adjusted_max = 3600, window = 3600`, the refill is `-1000` and the
script persists `tokens = -999 < 0`: the `max(0, …)` clamp applies
only to the returned remaining, not to the stored value. -/
theorem C2_negative_tokens_cex :
    storeGet (luaRateLimit
      [(tokenKeyOf "u" "/api/search", ⟨1, 3600⟩),
       (lastRefillKeyOf "u" "/api/search", ⟨1000, 3600⟩)]
      (tokenKeyOf "u" "/api/search") (lastRefillKeyOf "u" "/api/search")
      (countKeyOf "u" "/api/search") 0 3600 20 3600 1).2
      (tokenKeyOf "u" "/api/search") = some (-999) ∧
    ¬ (0 : ℚ) ≤ (-999 : ℚ) := by
  constructor
  · simp [luaRateLimit, storeGet, storeSetex, tokenKeyOf, lastRefillKeyOf,
      countKeyOf, List.find?, List.filter, min_def, max_def]
    norm_num
  · norm_num

/-- C2 (amended): the bucket invariant `0 ≤ tokens ≤ adjusted_burst`
holds for the persisted token value whenever the evaluation is not
subject to backward clock skew — i.e. when the stored `last_refill`
does not exceed `now` — the stored tokens were nonnegative and the
arguments are sensible (`0 ≤ adjusted_burst`, `0 ≤ adjusted_max`,
`0 < window`, `0 ≤ cost`); the *returned* remaining is nonnegative
unconditionally.  Under backward skew the code applies the negative
refill and can persist a negative value (see the counterexample). -/
theorem C2_token_bounds (store : Store) (tk lrk ck : String)
    (now adjustedMax adjustedBurst window : ℤ) (cost : ℚ)
    (h1 : tk ≠ lrk) (h2 : tk ≠ ck)
    (htok : ∀ v, storeGet store tk = some v → 0 ≤ v)
    (hlr : ∀ v, storeGet store lrk = some v → v ≤ (now : ℚ))
    (hburst : 0 ≤ adjustedBurst) (hmax : 0 ≤ adjustedMax)
    (hwin : 0 < window) (hcost : 0 ≤ cost) :
    (∀ t, storeGet (luaRateLimit store tk lrk ck now adjustedMax
        adjustedBurst window cost).2 tk = some t →
      0 ≤ t ∧ t ≤ (adjustedBurst : ℚ)) ∧
    0 ≤ (luaRateLimit store tk lrk ck now adjustedMax adjustedBurst
        window cost).1.2.1 := by
  have h0 : (0 : ℚ) ≤ (storeGet store tk).getD (adjustedBurst : ℚ) := by
    cases hv : storeGet store tk with
    | none => simpa using Int.cast_nonneg.2 hburst
    | some v => simpa using htok v hv
  have hlr0 : (storeGet store lrk).getD (now : ℚ) ≤ (now : ℚ) := by
    cases hv : storeGet store lrk with
    | none => simp
    | some v => simpa using hlr v hv
  have hrefill : (0 : ℚ) ≤
      ((now : ℚ) - (storeGet store lrk).getD (now : ℚ)) *
        (adjustedMax : ℚ) / (window : ℚ) := by
    apply div_nonneg
    · exact mul_nonneg (sub_nonneg.2 hlr0) (Int.cast_nonneg.2 hmax)
    · exact le_of_lt (Int.cast_pos.2 hwin)
  have ht1_ub : min (adjustedBurst : ℚ)
      ((storeGet store tk).getD (adjustedBurst : ℚ) +
        ((now : ℚ) - (storeGet store lrk).getD (now : ℚ)) *
          (adjustedMax : ℚ) / (window : ℚ)) ≤ (adjustedBurst : ℚ) :=
    min_le_left _ _
  have ht1_lb : (0 : ℚ) ≤ min (adjustedBurst : ℚ)
      ((storeGet store tk).getD (adjustedBurst : ℚ) +
        ((now : ℚ) - (storeGet store lrk).getD (now : ℚ)) *
          (adjustedMax : ℚ) / (window : ℚ)) :=
    le_min (Int.cast_nonneg.2 hburst) (add_nonneg h0 hrefill)
  constructor
  · intro t ht
    rw [luaRateLimit] at ht
    simp only at ht
    rw [storeGet_setex_other _ _ _ _ _ h2,
      storeGet_setex_other _ _ _ _ _ h1, storeGet_setex_same] at ht
    have ht2 := (Option.some_inj.1 ht).symm
    subst ht2
    by_cases hA : cost ≤ min (adjustedBurst : ℚ)
        ((storeGet store tk).getD (adjustedBurst : ℚ) +
          ((now : ℚ) - (storeGet store lrk).getD (now : ℚ)) *
            (adjustedMax : ℚ) / (window : ℚ)) ∧
        (storeGet store ck).getD 0 < (adjustedMax : ℚ)
    · simp only [decide_eq_true hA, if_true]
      exact ⟨sub_nonneg.2 hA.1,
        le_trans (sub_le_self _ hcost) ht1_ub⟩
    · simp only [decide_eq_false hA, if_false]
      exact ⟨ht1_lb, ht1_ub⟩
  · rw [luaRateLimit]
    simp only
    exact Int.floor_nonneg.2 (le_max_left _ _)

/-- Witness for the amended C2 at a concrete input. -/
theorem C2_token_bounds_witness :
    0 ≤ (luaRateLimit [] "a" "b" "c" 0 10 5 60 1).1.2.1 :=
  (C2_token_bounds [] "a" "b" "c" 0 10 5 60 1 (by decide) (by decide)
    (fun v h => by simp [storeGet] at h)
    (fun v h => by simp [storeGet] at h)
    (by decide) (by decide) (by decide) (by norm_num)).2

/-- C3: the atomic bucket evaluator's full contract.  With defaults
`tokens₀` (absent → `adjusted_burst`), `last_refill` (absent → `now`),
`count` (absent → 0), it computes
`tokens₁ = min(adjusted_burst, tokens₀ + (now − last_refill) ·
adjusted_max / window)`, admits iff `tokens₁ ≥ cost` and
`count < adjusted_max`, persists `tokens₁ − cost` and `count + cost`
on admission and `tokens₁`, `count` on denial with `last_refill`
advanced to `now`, always writes all three keys with TTL = `window`,
and returns `(1_if_admitted, ⌊max 0 tokens_after⌋, count_after)`. -/
theorem C3_lua_evaluator_contract (store : Store) (tk lrk ck : String)
    (now adjustedMax adjustedBurst window : ℤ) (cost : ℚ)
    (h1 : tk ≠ lrk) (h2 : tk ≠ ck) (h3 : lrk ≠ ck) :
    let tokens0 := (storeGet store tk).getD (adjustedBurst : ℚ)
    let lastRefill := (storeGet store lrk).getD (now : ℚ)
    let count := (storeGet store ck).getD 0
    let tokens1 := min (adjustedBurst : ℚ)
      (tokens0 + ((now : ℚ) - lastRefill) * (adjustedMax : ℚ) /
        (window : ℚ))
    let admitted := cost ≤ tokens1 ∧ count < (adjustedMax : ℚ)
    let tokensAfter := if admitted then tokens1 - cost else tokens1
    let countAfter := if admitted then count + cost else count
    let r := luaRateLimit store tk lrk ck now adjustedMax adjustedBurst
      window cost
    r.1.1 = (if admitted then 1 else 0) ∧
    r.1.2.1 = ⌊max 0 tokensAfter⌋ ∧
    r.1.2.2 = countAfter ∧
    storeGet r.2 tk = some tokensAfter ∧
    storeGet r.2 lrk = some (now : ℚ) ∧
    storeGet r.2 ck = some countAfter ∧
    storeTTL r.2 tk = some window ∧
    storeTTL r.2 lrk = some window ∧
    storeTTL r.2 ck = some window := by
  simp only [luaRateLimit]
  refine ⟨by simp, by simp, by simp, ?_, ?_, ?_, ?_, ?_, ?_⟩
  · rw [storeGet_setex_other _ _ _ _ _ h2,
      storeGet_setex_other _ _ _ _ _ h1, storeGet_setex_same]
    simp
  · rw [storeGet_setex_other _ _ _ _ _ h3, storeGet_setex_same]
  · rw [storeGet_setex_same]
    simp
  · rw [storeTTL_setex_other _ _ _ _ _ h2,
      storeTTL_setex_other _ _ _ _ _ h1, storeTTL_setex_same]
  · rw [storeTTL_setex_other _ _ _ _ _ h3, storeTTL_setex_same]
  · rw [storeTTL_setex_same]

/-- Witness for C3 at a concrete input: fresh bucket, one admission. -/
theorem C3_lua_evaluator_contract_witness :
    (luaRateLimit [] "a" "b" "c" 0 10 5 60 1).1.1 = 1 ∧
    storeGet (luaRateLimit [] "a" "b" "c" 0 10 5 60 1).2 "a" = some 4 ∧
    storeTTL (luaRateLimit [] "a" "b" "c" 0 10 5 60 1).2 "c" = some 60 := by
  have h := C3_lua_evaluator_contract [] "a" "b" "c" 0 10 5 60 1
    (by decide) (by decide) (by decide)
  refine ⟨?_, ?_, ?_⟩
  · rw [h.1]
    norm_num [storeGet, List.find?, min_def]
  · rw [h.2.2.2.1]
    norm_num [storeGet, List.find?, min_def]
  · exact h.2.2.2.2.2.2.2.2

/-- The token and last-refill bucket keys never clash (distinct prefix
lengths). -/
theorem tokenKey_ne_lastRefillKey (u e : String) :
    tokenKeyOf u e ≠ lastRefillKeyOf u e := by
  intro h
  have hl := congrArg String.length h
  simp only [tokenKeyOf, lastRefillKeyOf, String.length_append] at hl
  have h1 : "rate:tokens:".length = 12 := by decide
  have h2 : "rate:last_refill:".length = 17 := by decide
  rw [h1, h2] at hl
  omega

/-- The token and count bucket keys never clash. -/
theorem tokenKey_ne_countKey (u e : String) :
    tokenKeyOf u e ≠ countKeyOf u e := by
  intro h
  have hl := congrArg String.length h
  simp only [tokenKeyOf, countKeyOf, String.length_append] at hl
  have h1 : "rate:tokens:".length = 12 := by decide
  have h2 : "rate:count:".length = 11 := by decide
  rw [h1, h2] at hl
  omega

/-- The last-refill and count bucket keys never clash. -/
theorem lastRefillKey_ne_countKey (u e : String) :
    lastRefillKeyOf u e ≠ countKeyOf u e := by
  intro h
  have hl := congrArg String.length h
  simp only [lastRefillKeyOf, countKeyOf, String.length_append] at hl
  have h1 : "rate:last_refill:".length = 17 := by decide
  have h2 : "rate:count:".length = 11 := by decide
  rw [h1, h2] at hl
  omega

/-- The denial retry computation of `checkLimit` (lines 502–515)
normalizes to `max(1, ceil(deficit × seconds_per_token))` uniformly:
when there is no token deficit the ceiling is nonpositive and both
sides are 1. -/
theorem retry_normalize (t cost w m : ℚ) (hw : 0 < w) (hm : 0 < m) :
    max (if t < cost then ⌈(cost - t) * (w / m)⌉ else 0) 1 =
      max 1 ⌈(cost - t) * (w / m)⌉ := by
  by_cases h : t < cost
  · simp only [h, if_true]
    exact max_comm _ _
  · simp only [h, if_false]
    have hle : (cost - t) * (w / m) ≤ 0 :=
      mul_nonpos_iff.2 (Or.inr ⟨by linarith, le_of_lt (div_pos hw hm)⟩)
    have : (⌈(cost - t) * (w / m)⌉ : ℤ) ≤ 0 := Int.ceil_le.2 (by simpa using hle)
    omega

/-- The atomic evaluator always (re)writes the token key. -/
theorem luaRateLimit_tokenKey_written (store : Store) (tk lrk ck : String)
    (now m b w : ℤ) (cost : ℚ) (h2 : tk ≠ lrk) (h3 : tk ≠ ck) :
    ∃ t, storeGet (luaRateLimit store tk lrk ck now m b w cost).2 tk =
      some t := by
  rw [luaRateLimit]
  simp only
  rw [storeGet_setex_other _ _ _ _ _ h3, storeGet_setex_other _ _ _ _ _ h2,
    storeGet_setex_same]
  exact ⟨_, rfl⟩

/-- C4 (counterexample): a denial caused purely by the per-window count
gate (`count = 10 ≥ adjusted_max = 10` while `tokens = 2 ≥ cost = 1`)
returns `retry_after_seconds = 1`, not `window_seconds = 3600` as the
claim requires: the code has no `count ≥ adjusted_max` special case. -/
theorem C4_count_gate_retry_cex :
    (checkLimit { defaultState with ssEnabled := false, cacheEnabled := false }
      [(tokenKeyOf "bob" "/api/checkout", ⟨2, 3600⟩),
       (lastRefillKeyOf "bob" "/api/checkout", ⟨1000, 3600⟩),
       (countKeyOf "bob" "/api/checkout", ⟨10, 3600⟩)]
      noFail 1000000 "bob" "/api/checkout" "free" "US" 1).dec =
      some ⟨false, .fin 0, 1, some 1⟩ ∧ (1 : ℤ) ≠ 3600 := by
  constructor
  · simp [checkLimit, defaultState, noFail, getFromCache, mapGet, tierExists,
      RATE_LIMITS, geoMultiplier, GEO_LIMITS, getSlowStartMultiplier,
      slowStartKey, storeGet, storeSetex, logSecurityEvent, luaRateLimit,
      recordAnalyticsHit, setInCache, mapSet, tokenKeyOf, lastRefillKeyOf,
      countKeyOf, cacheKeyOf, List.find?, List.filter, ssStageGo, jsToInt,
      min_def, max_def]
  · decide

/-- C4 (amended): every allowed decision has `retry_after_seconds = 0`;
on the atomic path every denial has
`retry_after_seconds = max(1, ceil((cost − tokens_after) ·
window / adjusted_max))` where `tokens_after` is the post-refill token
value persisted by the evaluator and re-read by the engine — uniformly,
with no special case for denials due to `count ≥ adjusted_max` (those
get the same formula, which evaluates to 1 when `tokens_after ≥ cost`,
rather than `window_seconds`). -/
theorem C4_retry_after_formula (st : RLState) (store : Store) (nowMs : ℤ)
    (userId endpoint tier countryCode : String) (cost : ℚ)
    (cfg : EndpointConfig)
    (hcache : st.cacheEnabled = false) (hss : st.ssEnabled = false)
    (htier : tierExists tier = true)
    (hcfg : RATE_LIMITS tier endpoint = some cfg)
    (hwin : 0 < cfg.window)
    (hmax : 0 < ⌊(cfg.max : ℚ) * geoMultiplier countryCode⌋) :
    ∀ d, (checkLimit st store noFail nowMs userId endpoint tier countryCode
        cost).dec = some d →
      (d.allowed = true → d.retryAfter = 0) ∧
      (d.allowed = false → ∃ tokensAfter,
        storeGet (checkLimit st store noFail nowMs userId endpoint tier
          countryCode cost).store (tokenKeyOf userId endpoint) =
            some tokensAfter ∧
        d.retryAfter = max 1 ⌈(cost - tokensAfter) *
          ((cfg.window : ℚ) /
            ((⌊(cfg.max : ℚ) * geoMultiplier countryCode⌋ : ℤ) : ℚ))⌉) := by
  have htu : ¬ tier = "unlimited" := tierExists_ne_unlimited tier htier
  intro d hd
  simp only [checkLimit, ne_eq, htu, not_false_eq_true, if_true, getFromCache,
    hcache, Bool.false_eq_true, htier, if_pos, hcfg, getSlowStartMultiplier,
    hss, noFail, mul_one, Int.floor_intCast, if_false] at hd ⊢
  split at hd
  case isTrue hflag =>
    rw [if_pos hflag]
    simp only [CheckOut.dec, Option.some_inj] at hd
    subst hd
    constructor
    · intro _
      rfl
    · intro hfalse
      simp at hfalse
  case isFalse hflag =>
    rw [if_neg hflag]
    simp only [CheckOut.dec, Option.some_inj] at hd
    subst hd
    constructor
    · intro htrue
      simp at htrue
    · intro _
      obtain ⟨t, ht⟩ := luaRateLimit_tokenKey_written store
        (tokenKeyOf userId endpoint) (lastRefillKeyOf userId endpoint)
        (countKeyOf userId endpoint) (nowMs / 1000)
        ⌊(cfg.max : ℚ) * geoMultiplier countryCode⌋
        ⌊(cfg.burst : ℚ) * geoMultiplier countryCode⌋ cfg.window cost
        (tokenKey_ne_lastRefillKey userId endpoint)
        (tokenKey_ne_countKey userId endpoint)
      refine ⟨t, ht, ?_⟩
      simp only [CheckOut.store, ht, Option.getD_some]
      exact retry_normalize t cost (cfg.window : ℚ)
        ((⌊(cfg.max : ℚ) * geoMultiplier countryCode⌋ : ℤ) : ℚ)
        (by exact_mod_cast hwin) (by exact_mod_cast hmax)

/-- Witness for the amended C4: at the count-gate denial input the
formula yields exactly the returned `retryAfter = 1`. -/
theorem C4_retry_after_formula_witness :
    ∃ tokensAfter,
      storeGet (checkLimit
        { defaultState with ssEnabled := false, cacheEnabled := false }
        [(tokenKeyOf "bob" "/api/checkout", ⟨2, 3600⟩),
         (lastRefillKeyOf "bob" "/api/checkout", ⟨1000, 3600⟩),
         (countKeyOf "bob" "/api/checkout", ⟨10, 3600⟩)]
        noFail 1000000 "bob" "/api/checkout" "free" "US" 1).store
        (tokenKeyOf "bob" "/api/checkout") = some tokensAfter ∧
      (1 : ℤ) = max 1 ⌈((1 : ℚ) - tokensAfter) *
        ((3600 : ℚ) / (((10 : ℤ) : ℚ)))⌉ := by
  have hd : (checkLimit
      { defaultState with ssEnabled := false, cacheEnabled := false }
      [(tokenKeyOf "bob" "/api/checkout", ⟨2, 3600⟩),
       (lastRefillKeyOf "bob" "/api/checkout", ⟨1000, 3600⟩),
       (countKeyOf "bob" "/api/checkout", ⟨10, 3600⟩)]
      noFail 1000000 "bob" "/api/checkout" "free" "US" 1).dec =
      some ⟨false, .fin 0, 1, some 1⟩ := by
    simp [checkLimit, defaultState, noFail, getFromCache, mapGet, tierExists,
      RATE_LIMITS, geoMultiplier, GEO_LIMITS, getSlowStartMultiplier,
      slowStartKey, storeGet, storeSetex, logSecurityEvent, luaRateLimit,
      recordAnalyticsHit, setInCache, mapSet, tokenKeyOf, lastRefillKeyOf,
      countKeyOf, cacheKeyOf, List.find?, List.filter, ssStageGo, jsToInt,
      min_def, max_def]
  have h := C4_retry_after_formula
    { defaultState with ssEnabled := false, cacheEnabled := false }
    [(tokenKeyOf "bob" "/api/checkout", ⟨2, 3600⟩),
     (lastRefillKeyOf "bob" "/api/checkout", ⟨1000, 3600⟩),
     (countKeyOf "bob" "/api/checkout", ⟨10, 3600⟩)]
    1000000 "bob" "/api/checkout" "free" "US" 1 ⟨3600, 10, 2⟩
    rfl rfl (by decide) (by decide) (by decide)
    (by norm_num [geoMultiplier, GEO_LIMITS])
  obtain ⟨t, ht, hr⟩ := (h _ hd).2 rfl
  refine ⟨t, ht, ?_⟩
  norm_num [geoMultiplier, GEO_LIMITS] at hr ⊢
  exact hr

/-- A cache hit short-circuits `checkLimit`: the cached decision is
returned unchanged, with no store operations and no state change. -/
theorem checkLimit_cache_hit (st : RLState) (store : Store)
    (fail : DriverFail) (nowMs : ℤ)
    (userId endpoint tier countryCode : String) (cost : ℚ)
    (entry : CacheEntry)
    (htier : tier ≠ "unlimited")
    (hen : st.cacheEnabled = true)
    (hent : mapGet st.localCache (cacheKeyOf userId endpoint tier) =
      some entry)
    (hexp : ¬ entry.ttl < nowMs) :
    checkLimit st store fail nowMs userId endpoint tier countryCode cost =
      ⟨some entry.value, st, store, []⟩ := by
  rw [checkLimit]
  simp only [ne_eq, htier, not_false_eq_true, if_true, getFromCache, hen,
    hent, hexp, if_false, Bool.true_eq_false, not_true_eq_false,
    not_false_iff]

/-- The fallback evaluator never modifies the engine state. -/
theorem checkLimitFallback_st (st : RLState) (store : Store)
    (fail : DriverFail) (tk lrk ck : String) (now w m b : ℤ) (cost : ℚ) :
    (checkLimitFallback st store fail tk lrk ck now w m b cost).2.1 = st := by
  rw [checkLimitFallback]
  split
  · rfl
  · simp only
    split <;> rfl

/-- The fallback evaluator always returns a decision. -/
theorem checkLimitFallback_dec_isSome (st : RLState) (store : Store)
    (fail : DriverFail) (tk lrk ck : String) (now w m b : ℤ) (cost : ℚ) :
    (checkLimitFallback st store fail tk lrk ck now w m b cost).1.isSome =
      true := by
  rw [checkLimitFallback]
  split
  · rfl
  · simp only
    split <;> rfl

/-- Recording an analytics hit touches only `analyticsHits`. -/
theorem recordAnalyticsHit_frame (st : RLState) (u e t c : String)
    (a : Bool) :
    (recordAnalyticsHit st u e t c a).events = st.events ∧
    (recordAnalyticsHit st u e t c a).localCache = st.localCache ∧
    (recordAnalyticsHit st u e t c a).cacheEnabled = st.cacheEnabled ∧
    (recordAnalyticsHit st u e t c a).cacheTTL = st.cacheTTL ∧
    (recordAnalyticsHit st u e t c a).loggingEnabled = st.loggingEnabled ∧
    (recordAnalyticsHit st u e t c a).maxEvents = st.maxEvents := by
  rw [recordAnalyticsHit]
  exact ⟨rfl, rfl, rfl, rfl, rfl, rfl⟩

/-- Appending an audit event touches only `events`. -/
theorem logSecurityEvent_frame (st : RLState) (e : SecurityEvent) :
    (logSecurityEvent st e).analyticsHits = st.analyticsHits ∧
    (logSecurityEvent st e).localCache = st.localCache ∧
    (logSecurityEvent st e).cacheEnabled = st.cacheEnabled ∧
    (logSecurityEvent st e).cacheTTL = st.cacheTTL := by
  rw [logSecurityEvent]
  split
  · exact ⟨rfl, rfl, rfl, rfl⟩
  · exact ⟨rfl, rfl, rfl, rfl⟩

/-- Caching a decision touches only `localCache`. -/
theorem setInCache_frame (st : RLState) (nowMs : ℤ) (k : String)
    (v : Decision) :
    (setInCache st nowMs k v).analyticsHits = st.analyticsHits ∧
    (setInCache st nowMs k v).events = st.events ∧
    (setInCache st nowMs k v).cacheEnabled = st.cacheEnabled ∧
    (setInCache st nowMs k v).cacheTTL = st.cacheTTL := by
  rw [setInCache]
  split
  · exact ⟨rfl, rfl, rfl, rfl⟩
  · exact ⟨rfl, rfl, rfl, rfl⟩

/-- First of two identical calls (cache enabled, slow-start off),
admitting and populating the cache. -/
def c5FirstCall : CheckOut :=
  checkLimit { defaultState with ssEnabled := false } [] noFail 0
    "carol" "/api/search" "free" "US" 1

/-- Second identical call, within the cache TTL: a cache hit. -/
def c5SecondCall : CheckOut :=
  checkLimit c5FirstCall.st c5FirstCall.store noFail 0
    "carol" "/api/search" "free" "US" 1

/-- C5 (counterexample): two identical calls each return a decision
(the second from the cache, equal to the first), yet the analytics
counter for `(endpoint, tier, region)` records only one request —
cache hits return before `recordAnalyticsHit`, so counters are NOT
incremented once per returned decision. -/
theorem C5_cache_hit_skips_analytics_cex :
    c5SecondCall.dec = c5FirstCall.dec ∧
    c5FirstCall.dec.isSome = true ∧
    c5SecondCall.st.analyticsHits =
      [("/api/search:free:US", ⟨"/api/search", "free", "US", 1, 0, 1⟩)] := by
  refine ⟨?_, ?_, ?_⟩ <;>
  · simp [c5SecondCall, c5FirstCall, checkLimit, defaultState, noFail,
      getFromCache, mapGet, tierExists, RATE_LIMITS, geoMultiplier,
      GEO_LIMITS, getSlowStartMultiplier, slowStartKey, storeGet, storeSetex,
      logSecurityEvent, luaRateLimit, recordAnalyticsHit, setInCache, mapSet,
      tokenKeyOf, lastRefillKeyOf, countKeyOf, cacheKeyOf, List.find?,
      List.filter, ssStageGo, jsToInt, min_def, max_def]

/-- C5 (amended): the analytics counter is incremented exactly once per
decision produced by the atomic evaluator (matching the decision's
allowed flag), but cache-hit decisions and fallback decisions do not
touch analytics at all (and the unlimited-tier recording is dead code,
see C1). -/
theorem C5_analytics_per_path (st : RLState) (store : Store)
    (nowMs : ℤ) (userId endpoint tier countryCode : String) (cost : ℚ)
    (cfg : EndpointConfig)
    (htier : tierExists tier = true)
    (hcfg : RATE_LIMITS tier endpoint = some cfg)
    (hss : st.ssEnabled = false) :
    (∀ entry fail, st.cacheEnabled = true →
      mapGet st.localCache (cacheKeyOf userId endpoint tier) = some entry →
      ¬ entry.ttl < nowMs →
      (checkLimit st store fail nowMs userId endpoint tier
        countryCode cost).st.analyticsHits = st.analyticsHits) ∧
    (st.cacheEnabled = false →
      ∃ d, (checkLimit st store noFail nowMs userId endpoint tier
          countryCode cost).dec = some d ∧
        (checkLimit st store noFail nowMs userId endpoint tier countryCode
          cost).st.analyticsHits =
          (recordAnalyticsHit st userId endpoint tier countryCode
            d.allowed).analyticsHits) ∧
    (st.cacheEnabled = false → ∀ fail, fail.evalB = .err →
      (checkLimit st store fail nowMs userId endpoint tier countryCode
        cost).st.analyticsHits = st.analyticsHits) := by
  have htu : ¬ tier = "unlimited" := tierExists_ne_unlimited tier htier
  refine ⟨?_, ?_, ?_⟩
  · intro entry fail hen hent hexp
    rw [checkLimit_cache_hit st store fail nowMs userId endpoint tier
      countryCode cost entry htu hen hent hexp]
  · intro hcache
    simp only [checkLimit, ne_eq, htu, not_false_eq_true, if_true,
      getFromCache, hcache, Bool.false_eq_true, htier, if_pos, hcfg,
      getSlowStartMultiplier, hss, noFail, mul_one, Int.floor_intCast,
      if_false]
    split
    case isTrue hflag =>
      refine ⟨_, rfl, ?_⟩
      rw [(setInCache_frame _ _ _ _).1]
      simp [hflag]
    case isFalse hflag =>
      refine ⟨_, rfl, ?_⟩
      rw [(logSecurityEvent_frame _ _).1]
      simp [hflag]
  · intro hcache fail hfail
    simp only [checkLimit, ne_eq, htu, not_false_eq_true, if_true,
      getFromCache, hcache, Bool.false_eq_true, htier, if_pos, hcfg,
      getSlowStartMultiplier, hss, hfail, mul_one, Int.floor_intCast,
      if_false]
    rw [checkLimitFallback_st]

/-- Witness for the amended C5: a fallback-path call leaves analytics
empty. -/
theorem C5_analytics_per_path_witness :
    (checkLimit { defaultState with ssEnabled := false, cacheEnabled := false }
      [] { noFail with evalB := .err } 0 "wit5" "/api/search" "free" "US"
      1).st.analyticsHits = [] := by
  have h := (C5_analytics_per_path
    { defaultState with ssEnabled := false, cacheEnabled := false } [] 0
    "wit5" "/api/search" "free" "US" 1 ⟨3600, 100, 20⟩ (by decide)
    (by decide) rfl).2.2 rfl { noFail with evalB := .err } rfl
  exact h

/-- With logging enabled and room in the ring, an append pushes the
event at the back. -/
theorem logSecurityEvent_append (st : RLState) (e : SecurityEvent)
    (hlog : st.loggingEnabled = true)
    (hroom : st.events.length < st.maxEvents) :
    (logSecurityEvent st e).events = st.events ++ [e] := by
  rw [logSecurityEvent]
  rw [if_neg (by simp [hlog])]
  simp only
  rw [if_neg (by simp only [List.length_append, List.length_cons,
    List.length_nil]; omega)]

/-- C6 (amended): a denial on the *atomic* path appends exactly one
`rate_limit_exceeded` event (when logging is enabled and the ring has
room); the fallback path appends nothing, not even on denials; the
ring never exceeds `max_events` and evicts FIFO at capacity; with
logging disabled `append` is a no-op and `query` returns the empty
history. -/
theorem C6_audit_log_behavior (st : RLState) (store : Store)
    (nowMs : ℤ) (userId endpoint tier countryCode : String) (cost : ℚ)
    (cfg : EndpointConfig)
    (htier : tierExists tier = true)
    (hcfg : RATE_LIMITS tier endpoint = some cfg)
    (hss : st.ssEnabled = false)
    (hcache : st.cacheEnabled = false) :
    (st.loggingEnabled = true → st.events.length < st.maxEvents →
      ∀ d, (checkLimit st store noFail nowMs userId endpoint tier
          countryCode cost).dec = some d → d.allowed = false →
        (checkLimit st store noFail nowMs userId endpoint tier countryCode
          cost).st.events =
          st.events ++ [⟨nowMs, "rate_limit_exceeded", userId, endpoint⟩]) ∧
    (∀ fail, fail.evalB = .err →
      (checkLimit st store fail nowMs userId endpoint tier countryCode
        cost).st.events = st.events) ∧
    (∀ st2 : RLState, ∀ e : SecurityEvent,
      st2.events.length ≤ st2.maxEvents →
      (logSecurityEvent st2 e).events.length ≤ st2.maxEvents) ∧
    (∀ st2 : RLState, ∀ e : SecurityEvent, st2.loggingEnabled = true →
      st2.events.length = st2.maxEvents →
      (logSecurityEvent st2 e).events = (st2.events ++ [e]).drop 1) ∧
    (∀ st2 : RLState, ∀ e : SecurityEvent, ∀ f : LogFilter,
      st2.loggingEnabled = false →
      logSecurityEvent st2 e = st2 ∧
      (st2.events = [] → getSecurityLog st2 f = [])) := by
  have htu : ¬ tier = "unlimited" := tierExists_ne_unlimited tier htier
  refine ⟨?_, ?_, ?_, ?_, ?_⟩
  · intro hlog hroom d hd hdeny
    simp only [checkLimit, ne_eq, htu, not_false_eq_true, if_true,
      getFromCache, hcache, Bool.false_eq_true, htier, if_pos, hcfg,
      getSlowStartMultiplier, hss, noFail, mul_one, Int.floor_intCast,
      if_false] at hd ⊢
    split at hd
    case isTrue hflag =>
      rw [if_pos hflag]
      simp only [CheckOut.dec, Option.some_inj] at hd
      subst hd
      simp at hdeny
    case isFalse hflag =>
      rw [if_neg hflag]
      simp only [CheckOut.st]
      rw [logSecurityEvent_append _ _
        (by rw [(recordAnalyticsHit_frame _ _ _ _ _ _).2.2.2.2.1]; exact hlog)
        (by rw [(recordAnalyticsHit_frame _ _ _ _ _ _).1,
          (recordAnalyticsHit_frame _ _ _ _ _ _).2.2.2.2.2]; exact hroom)]
      rw [(recordAnalyticsHit_frame _ _ _ _ _ _).1]
  · intro fail hfail
    simp only [checkLimit, ne_eq, htu, not_false_eq_true, if_true,
      getFromCache, hcache, Bool.false_eq_true, htier, if_pos, hcfg,
      getSlowStartMultiplier, hss, hfail, mul_one, Int.floor_intCast,
      if_false]
    rw [checkLimitFallback_st]
  · intro st2 e hle
    rw [logSecurityEvent]
    split
    · exact hle
    · simp only
      split
      case isTrue h =>
        simp only [List.length_drop, List.length_append, List.length_cons,
          List.length_nil]
        omega
      case isFalse h =>
        simp only [List.length_append, List.length_cons, List.length_nil]
        simp only [List.length_append, List.length_cons, List.length_nil]
          at h
        omega
  · intro st2 e hlog hfull
    rw [logSecurityEvent]
    rw [if_neg (by simp [hlog])]
    simp only
    rw [if_pos (by simp only [List.length_append, List.length_cons,
      List.length_nil]; omega)]
  · intro st2 e f hlog
    constructor
    · rw [logSecurityEvent]
      rw [if_pos (by simp [hlog])]
    · intro hempty
      rcases f with ⟨fu, ft, fs⟩
      cases fu <;> cases ft <;> cases fs <;>
        simp [getSecurityLog, hempty]


/-- C6 (counterexample): a denial returned by the fallback evaluator
(stored fractional tokens below cost, eval transport failing) appends
no audit event at all, although logging is enabled — the fallback has
no `logSecurityEvent` call. -/
theorem C6_fallback_denial_no_event_cex :
    (checkLimit { defaultState with ssEnabled := false, cacheEnabled := false }
      [(tokenKeyOf "dan" "/api/search", ⟨1/2, 3600⟩),
       (lastRefillKeyOf "dan" "/api/search", ⟨1000, 3600⟩)]
      { noFail with evalB := .err } 1000000 "dan" "/api/search" "free" "US"
      1).dec = some ⟨false, .fin 0, 18, none⟩ ∧
    (checkLimit { defaultState with ssEnabled := false, cacheEnabled := false }
      [(tokenKeyOf "dan" "/api/search", ⟨1/2, 3600⟩),
       (lastRefillKeyOf "dan" "/api/search", ⟨1000, 3600⟩)]
      { noFail with evalB := .err } 1000000 "dan" "/api/search" "free" "US"
      1).st.events = [] ∧
    ({ defaultState with ssEnabled := false, cacheEnabled := false } :
      RLState).loggingEnabled = true := by
  refine ⟨?_, ?_, rfl⟩ <;>
  · simp [checkLimit, checkLimitFallback, defaultState, noFail, getFromCache,
      mapGet, tierExists, RATE_LIMITS, geoMultiplier, GEO_LIMITS,
      getSlowStartMultiplier, slowStartKey, storeGet, storeSetex,
      logSecurityEvent, luaRateLimit, recordAnalyticsHit, setInCache, mapSet,
      tokenKeyOf, lastRefillKeyOf, countKeyOf, cacheKeyOf, List.find?,
      List.filter, ssStageGo, jsToInt, jsParseFloatOr, jsParseIntOr,
      min_def, max_def]
    norm_num

/-- A full audit ring of capacity 1, for the C6 witness. -/
def c6FullRingState : RLState :=
  { analyticsHits := []
    loggingEnabled := true
    events := [⟨0, "rate_limit_exceeded", "a", "/api/search"⟩]
    maxEvents := 1
    ssEnabled := true
    ssDuration := 86400
    ssStages := [1]
    localCache := []
    cacheEnabled := true
    cacheTTL := 1000 }

/-- Witness for the amended C6: FIFO eviction at capacity 1. -/
theorem C6_audit_log_behavior_witness :
    (logSecurityEvent c6FullRingState
      ⟨1, "rate_limit_exceeded", "b", "/api/search"⟩).events =
      [⟨1, "rate_limit_exceeded", "b", "/api/search"⟩] := by
  have h := (C6_audit_log_behavior
    { defaultState with ssEnabled := false, cacheEnabled := false } [] 0
    "wit6" "/api/search" "free" "US" 1 ⟨3600, 100, 20⟩ (by decide)
    (by decide) rfl rfl).2.2.2.1 c6FullRingState
    ⟨1, "rate_limit_exceeded", "b", "/api/search"⟩ rfl rfl
  simpa [c6FullRingState] using h

/-- The fallback evaluator never returns the undefined decision. -/
theorem checkLimitFallback_dec_ne_none (st : RLState) (store : Store)
    (fail : DriverFail) (tk lrk ck : String) (now w m b : ℤ) (cost : ℚ) :
    (checkLimitFallback st store fail tk lrk ck now w m b cost).1 ≠
      none := by
  rw [checkLimitFallback]
  split
  · exact Option.some_ne_none _
  · simp only
    split <;> exact Option.some_ne_none _

set_option maxHeartbeats 1000000 in
/-- C7 (amended): `checkLimit` never raises and returns a decision for
every driver behavior EXCEPT when `eval` resolves with a null result,
the only way to obtain no decision (`undefined`); and when the atomic
eval errors and the fallback reads also fail, the decision is the
fail-open `{allowed: true, remaining: unbounded, retryAfter: 0}`. -/
theorem C7_total_and_fail_open :
    (∀ (st : RLState) (store : Store) (fail : DriverFail) (nowMs : ℤ)
      (userId endpoint tier countryCode : String) (cost : ℚ),
      (checkLimit st store fail nowMs userId endpoint tier countryCode
        cost).dec = none → fail.evalB = .nullResult) ∧
    (∀ (st : RLState) (store : Store) (fail : DriverFail) (nowMs : ℤ)
      (userId endpoint tier countryCode : String) (cost : ℚ)
      (cfg : EndpointConfig),
      st.cacheEnabled = false → st.ssEnabled = false →
      tierExists tier = true → RATE_LIMITS tier endpoint = some cfg →
      fail.evalB = .err → fail.fbGet = true →
      (checkLimit st store fail nowMs userId endpoint tier countryCode
        cost).dec = some ⟨true, .unbounded, 0, none⟩) := by
  constructor
  · intro st store fail nowMs userId endpoint tier countryCode cost h
    rw [checkLimit] at h
    rcases hRL : RATE_LIMITS (if tierExists tier = true then tier else "free")
        endpoint with _ | cfg <;>
      simp only [hRL] at h
    · repeat' split at h
      all_goals simp at h
    · by_cases hU : (if tierExists tier = true then tier else "free") =
        "unlimited"
      · simp only [hU, if_true] at h
        repeat' split at h
        all_goals simp at h
      · simp only [hU, if_false] at h
        repeat' split at h
        all_goals first
          | assumption
          | exact absurd h
              (checkLimitFallback_dec_ne_none _ _ _ _ _ _ _ _ _ _ _)
          | simp at h
  · intro st store fail nowMs userId endpoint tier countryCode cost cfg
      hcache hss htier hcfg hE hG
    have htu : ¬ tier = "unlimited" := tierExists_ne_unlimited tier htier
    simp only [checkLimit, ne_eq, htu, not_false_eq_true, if_true,
      getFromCache, hcache, Bool.false_eq_true, htier, if_pos, hcfg,
      getSlowStartMultiplier, hss, hE, mul_one, Int.floor_intCast, if_false]
    rw [checkLimitFallback]
    rw [if_pos hG]


/-- C7 (counterexample): when `eval` resolves successfully with a null
result, `checkLimit` falls off the end of the function and returns
`undefined` — no decision record with an `allowed` field. -/
theorem C7_null_eval_returns_undefined_cex :
    (checkLimit { defaultState with ssEnabled := false, cacheEnabled := false }
      [] { noFail with evalB := .nullResult } 1000000 "eve" "/api/search"
      "free" "US" 1).dec = none := by
  simp [checkLimit, defaultState, noFail, getFromCache, mapGet, tierExists,
    RATE_LIMITS, geoMultiplier, GEO_LIMITS, getSlowStartMultiplier,
    slowStartKey, storeGet, storeSetex, logSecurityEvent, luaRateLimit,
    recordAnalyticsHit, setInCache, mapSet, tokenKeyOf, lastRefillKeyOf,
    countKeyOf, cacheKeyOf, List.find?, List.filter, ssStageGo, jsToInt,
    min_def, max_def]

/-- Witness for the amended C7: failing fallback reads produce the
fail-open decision. -/
theorem C7_total_and_fail_open_witness :
    (checkLimit { defaultState with ssEnabled := false, cacheEnabled := false }
      [] ⟨false, false, .err, false, true, false⟩ 0 "wit7" "/api/search"
      "free" "US" 1).dec = some ⟨true, .unbounded, 0, none⟩ :=
  C7_total_and_fail_open.2
    { defaultState with ssEnabled := false, cacheEnabled := false } []
    ⟨false, false, .err, false, true, false⟩ 0 "wit7" "/api/search"
    "free" "US" 1 ⟨3600, 100, 20⟩ rfl rfl (by decide) (by decide) rfl rfl

/-- JS `parseInt` is the identity on stored integer values. -/
theorem jsToInt_intCast (n : ℤ) : jsToInt ((n : ℤ) : ℚ) = n := by
  rw [jsToInt]
  by_cases h : (0 : ℚ) ≤ (n : ℚ)
  · rw [if_pos h, Int.floor_intCast]
  · rw [if_neg h]
    rw [show -((n : ℤ) : ℚ) = ((-n : ℤ) : ℚ) by push_cast; ring]
    rw [Int.floor_intCast]
    ring

/-- Characterization of the slow-start stage loop: starting at index
`i` with `r` iterations left, it lands on
`min (i + r) (max i ⌊age / sd⌋)`. -/
theorem ssStageGo_eq (age sd : ℚ) (hsd : 0 < sd) (hage : 0 ≤ age) :
    ∀ r i, ssStageGo age sd i r = min (i + r) (max i (⌊age / sd⌋.toNat)) := by
  intro r
  induction r with
  | zero =>
      intro i
      simp [ssStageGo]
  | succ n ih =>
      intro i
      rw [ssStageGo]
      have hK0 : (0 : ℤ) ≤ ⌊age / sd⌋ := by
        apply Int.floor_nonneg.2
        positivity
      by_cases hc : sd * ((i : ℚ) + 1) ≤ age
      · rw [if_pos hc]
        rw [ih (i + 1)]
        have h1 : ((i + 1 : ℕ) : ℚ) ≤ age / sd := by
          rw [le_div_iff₀ hsd]
          push_cast
          linarith [hc]
        have h2 : ((i + 1 : ℕ) : ℤ) ≤ ⌊age / sd⌋ :=
          Int.le_floor.2 (by exact_mod_cast h1)
        have h3 : i + 1 ≤ ⌊age / sd⌋.toNat := by omega
        omega
      · rw [if_neg hc]
        have h1 : ¬ ((i + 1 : ℕ) : ℚ) ≤ age / sd := by
          rw [le_div_iff₀ hsd]
          push_cast
          intro hcon
          exact hc (by linarith)
        have h2 : ⌊age / sd⌋ < ((i + 1 : ℕ) : ℤ) := by
          by_contra hcon
          push_neg at hcon
          exact h1 (by exact_mod_cast Int.le_floor.1 hcon)
        have h3 : ⌊age / sd⌋.toNat ≤ i := by omega
        omega


/-- C8: `getSlowStartMultiplier` behaves as specified.  Marker absent:
write it with value `now` (seconds) and TTL `duration`, submit a
`new_user` event to the audit log, and return `stages[0]`.  Marker
present with integer start `t0 ≤ now`: return
`stages[min(len − 1, ⌊(now − t0) / (duration / len)⌋)]` with no store
write and no state change.  A store error on the `get` — or on the
marker `setex` — yields 1.0 (fail-open for this factor only). -/
theorem C8_slow_start_multiplier (st : RLState) (store : Store) (nowMs : ℤ)
    (userId endpoint : String)
    (hss : st.ssEnabled = true)
    (hstages : st.ssStages ≠ [])
    (hdur : 0 < st.ssDuration) :
    (∀ fail, fail.ssGet = false → fail.ssSet = false →
      storeGet store (slowStartKey userId endpoint) = none →
      (getSlowStartMultiplier st store fail nowMs userId endpoint).1 =
        st.ssStages.headD 1 ∧
      storeGet (getSlowStartMultiplier st store fail nowMs userId
          endpoint).2.2.1 (slowStartKey userId endpoint) =
        some ((nowMs / 1000 : ℤ) : ℚ) ∧
      storeTTL (getSlowStartMultiplier st store fail nowMs userId
          endpoint).2.2.1 (slowStartKey userId endpoint) =
        some st.ssDuration ∧
      (st.loggingEnabled = true → st.events.length < st.maxEvents →
        (getSlowStartMultiplier st store fail nowMs userId
          endpoint).2.1.events =
          st.events ++ [⟨nowMs, "new_user", userId, endpoint⟩])) ∧
    (∀ fail (t0 : ℤ), fail.ssGet = false →
      storeGet store (slowStartKey userId endpoint) = some ((t0 : ℤ) : ℚ) →
      t0 ≤ nowMs / 1000 →
      (getSlowStartMultiplier st store fail nowMs userId endpoint).1 =
        st.ssStages.getD (min (st.ssStages.length - 1)
          (⌊((nowMs / 1000 - t0 : ℤ) : ℚ) /
            ((st.ssDuration : ℚ) / (st.ssStages.length : ℚ))⌋.toNat)) 1 ∧
      (getSlowStartMultiplier st store fail nowMs userId endpoint).2.2.1 =
        store ∧
      (getSlowStartMultiplier st store fail nowMs userId endpoint).2.1 =
        st) ∧
    (∀ fail, fail.ssGet = true →
      (getSlowStartMultiplier st store fail nowMs userId endpoint).1 = 1 ∧
      (getSlowStartMultiplier st store fail nowMs userId endpoint).2.2.1 =
        store) ∧
    (∀ fail, fail.ssGet = false → fail.ssSet = true →
      storeGet store (slowStartKey userId endpoint) = none →
      (getSlowStartMultiplier st store fail nowMs userId endpoint).1 =
        1) := by
  refine ⟨?_, ?_, ?_, ?_⟩
  · intro fail hg hs hm
    simp only [getSlowStartMultiplier, hss, hg, hs, hm, Bool.false_eq_true,
      not_true_eq_false, if_false, Bool.true_eq_false]
    refine ⟨by trivial, ?_, ?_, ?_⟩
    · rw [storeGet_setex_same]
    · rw [storeTTL_setex_same]
    · intro hlog hroom
      rw [logSecurityEvent_append _ _ hlog hroom]
  · intro fail t0 hg hm hle
    simp only [getSlowStartMultiplier, hss, hg, hm, Bool.false_eq_true,
      not_true_eq_false, if_false, Bool.true_eq_false]
    refine ⟨?_, by trivial, by trivial⟩
    rw [jsToInt_intCast]
    have hlen : 0 < st.ssStages.length := List.length_pos.2 hstages
    have hsd : 0 < (st.ssDuration : ℚ) / (st.ssStages.length : ℚ) := by
      apply div_pos
      · exact_mod_cast hdur
      · exact_mod_cast hlen
    have hage : (0 : ℚ) ≤ ((nowMs / 1000 : ℤ) : ℚ) - ((t0 : ℤ) : ℚ) := by
      rw [sub_nonneg]
      exact_mod_cast hle
    rw [ssStageGo_eq _ _ hsd hage]
    congr 1
    have hcast : ((nowMs / 1000 : ℤ) : ℚ) - ((t0 : ℤ) : ℚ) =
        ((nowMs / 1000 - t0 : ℤ) : ℚ) := by push_cast; ring
    rw [hcast]
    omega
  · intro fail hg
    simp only [getSlowStartMultiplier, hss, hg, Bool.false_eq_true,
      not_true_eq_false, if_false, if_true]
    exact ⟨by trivial, by trivial⟩
  · intro fail hg hs hm
    simp only [getSlowStartMultiplier, hss, hg, hs, hm, Bool.false_eq_true,
      not_true_eq_false, if_false, if_true, Bool.true_eq_false]


/-- Witness for C8: a 30 000-second-old identity with the default
stages and duration sits in stage 1 (multiplier 0.6). -/
theorem C8_slow_start_multiplier_witness :
    (getSlowStartMultiplier defaultState
      [(slowStartKey "w8" "/api/search", ⟨0, 86400⟩)] noFail 30000000
      "w8" "/api/search").1 = 6/10 := by
  have h := (C8_slow_start_multiplier defaultState
    [(slowStartKey "w8" "/api/search", ⟨0, 86400⟩)] 30000000
    "w8" "/api/search" rfl (by simp [defaultState])
    (by norm_num [defaultState])).2.1 noFail 0 rfl
    (by norm_num [storeGet, slowStartKey, List.find?]) (by decide)
  rw [h.1]
  norm_num [defaultState, List.getD]

/-- JS `Map.get` after `Map.set` of the same key yields the new value. -/
theorem mapGet_mapSet_same {α : Type} (m : List (String × α)) (k : String)
    (v : α) : mapGet (mapSet m k v) k = some v := by
  rw [mapSet]
  by_cases h : (m.find? (fun p => p.1 = k)).isSome = true
  · rw [if_pos h]
    induction m with
    | nil => simp [List.find?] at h
    | cons a t ih =>
        rw [List.map_cons]
        by_cases hk : a.1 = k
        · simp [mapGet, List.find?, hk]
        · simp only [hk, if_false]
          simp only [mapGet, List.find?, hk, decide_eq_true_eq] at ih ⊢
          simp only [decide_False]
          apply ih
          simp only [List.find?, decide_eq_false hk] at h
          exact h
  · rw [if_neg h]
    induction m with
    | nil => simp [mapGet, List.find?]
    | cons a t ih =>
        have hk : ¬ a.1 = k := by
          intro hk
          exact h (by simp [List.find?, hk])
        rw [List.cons_append]
        simp only [mapGet, List.find?, decide_eq_false hk,
          Bool.false_eq_true, if_false] at ih ⊢
        apply ih
        intro hcontra
        exact h (by simp only [List.find?, decide_eq_false hk,
          Bool.false_eq_true, if_false]; exact hcontra)


/-- Caching an allow decision with the cache enabled stores it under
the computed expiry. -/
theorem setInCache_localCache (st : RLState) (nowMs : ℤ) (k : String)
    (v : Decision) (hen : st.cacheEnabled = true) :
    (setInCache st nowMs k v).localCache =
      mapSet st.localCache k ⟨v, nowMs + st.cacheTTL⟩ := by
  rw [setInCache]
  rw [if_neg (by simp [hen])]

/-- C9: with the cache enabled, an atomic-path admission stores the
returned decision under the cache key with expiry `now + cacheTTL` and
costs exactly one store operation; any call whose cache probe hits
returns the cached decision with NO store operations and no state
change; denials are never placed in the cache (the denial path leaves
the cache untouched); consequently two identical calls made within the
cache TTL after a successful admission both return the admission's
decision and incur zero further store operations. -/
theorem C9_cache_round_trip (st : RLState) (store : Store) (nowMs : ℤ)
    (userId endpoint tier countryCode : String) (cost : ℚ)
    (cfg : EndpointConfig)
    (htier : tierExists tier = true)
    (hcfg : RATE_LIMITS tier endpoint = some cfg)
    (hen : st.cacheEnabled = true)
    (hss : st.ssEnabled = false)
    (hmiss : mapGet st.localCache (cacheKeyOf userId endpoint tier) =
      none) :
    (∀ (st1 : RLState) (store1 : Store) (fail1 : DriverFail) (nowMs1 : ℤ)
      (u1 e1 t1 c1 : String) (cost1 : ℚ) (entry : CacheEntry),
      t1 ≠ "unlimited" → st1.cacheEnabled = true →
      mapGet st1.localCache (cacheKeyOf u1 e1 t1) = some entry →
      ¬ entry.ttl < nowMs1 →
      checkLimit st1 store1 fail1 nowMs1 u1 e1 t1 c1 cost1 =
        ⟨some entry.value, st1, store1, []⟩) ∧
    (∀ d, (checkLimit st store noFail nowMs userId endpoint tier
        countryCode cost).dec = some d → d.allowed = true →
      mapGet (checkLimit st store noFail nowMs userId endpoint tier
          countryCode cost).st.localCache
        (cacheKeyOf userId endpoint tier) =
        some ⟨d, nowMs + st.cacheTTL⟩ ∧
      (checkLimit st store noFail nowMs userId endpoint tier countryCode
        cost).ops = [.evalScript] ∧
      (checkLimit st store noFail nowMs userId endpoint tier countryCode
        cost).st.cacheEnabled = true) ∧
    (∀ d, (checkLimit st store noFail nowMs userId endpoint tier
        countryCode cost).dec = some d → d.allowed = false →
      (checkLimit st store noFail nowMs userId endpoint tier countryCode
        cost).st.localCache = st.localCache) ∧
    (∀ d (fail2 fail3 : DriverFail) (nowMs2 nowMs3 : ℤ),
      (checkLimit st store noFail nowMs userId endpoint tier countryCode
        cost).dec = some d → d.allowed = true →
      nowMs2 ≤ nowMs + st.cacheTTL → nowMs3 ≤ nowMs + st.cacheTTL →
      checkLimit (checkLimit st store noFail nowMs userId endpoint tier
          countryCode cost).st
        (checkLimit st store noFail nowMs userId endpoint tier countryCode
          cost).store fail2 nowMs2 userId endpoint tier countryCode cost =
        ⟨some d,
          (checkLimit st store noFail nowMs userId endpoint tier
            countryCode cost).st,
          (checkLimit st store noFail nowMs userId endpoint tier
            countryCode cost).store, []⟩ ∧
      checkLimit (checkLimit (checkLimit st store noFail nowMs userId
            endpoint tier countryCode cost).st
          (checkLimit st store noFail nowMs userId endpoint tier
            countryCode cost).store fail2 nowMs2 userId endpoint tier
          countryCode cost).st
        (checkLimit (checkLimit st store noFail nowMs userId endpoint tier
            countryCode cost).st
          (checkLimit st store noFail nowMs userId endpoint tier
            countryCode cost).store fail2 nowMs2 userId endpoint tier
          countryCode cost).store fail3 nowMs3 userId endpoint tier
        countryCode cost =
        ⟨some d,
          (checkLimit st store noFail nowMs userId endpoint tier
            countryCode cost).st,
          (checkLimit st store noFail nowMs userId endpoint tier
            countryCode cost).store, []⟩) := by
  have htu : ¬ tier = "unlimited" := tierExists_ne_unlimited tier htier
  have hB : ∀ (st1 : RLState) (store1 : Store) (fail1 : DriverFail)
      (nowMs1 : ℤ) (u1 e1 t1 c1 : String) (cost1 : ℚ) (entry : CacheEntry),
      t1 ≠ "unlimited" → st1.cacheEnabled = true →
      mapGet st1.localCache (cacheKeyOf u1 e1 t1) = some entry →
      ¬ entry.ttl < nowMs1 →
      checkLimit st1 store1 fail1 nowMs1 u1 e1 t1 c1 cost1 =
        ⟨some entry.value, st1, store1, []⟩ := by
    intro st1 store1 fail1 nowMs1 u1 e1 t1 c1 cost1 entry ht1 he1 hm1 hx1
    exact checkLimit_cache_hit st1 store1 fail1 nowMs1 u1 e1 t1 c1 cost1
      entry ht1 he1 hm1 hx1
  have hA : ∀ d, (checkLimit st store noFail nowMs userId endpoint tier
      countryCode cost).dec = some d → d.allowed = true →
      mapGet (checkLimit st store noFail nowMs userId endpoint tier
          countryCode cost).st.localCache
        (cacheKeyOf userId endpoint tier) =
        some ⟨d, nowMs + st.cacheTTL⟩ ∧
      (checkLimit st store noFail nowMs userId endpoint tier countryCode
        cost).ops = [.evalScript] ∧
      (checkLimit st store noFail nowMs userId endpoint tier countryCode
        cost).st.cacheEnabled = true := by
    intro d hd hallow
    simp only [checkLimit, ne_eq, htu, not_false_eq_true, if_true,
      getFromCache, hen, hmiss, Bool.false_eq_true, htier, if_pos, hcfg,
      getSlowStartMultiplier, hss, noFail, mul_one, Int.floor_intCast,
      if_false, not_true_eq_false] at hd ⊢
    split at hd
    case isTrue hflag =>
      rw [if_pos hflag]
      simp only [CheckOut.dec, Option.some_inj] at hd
      subst hd
      refine ⟨?_, rfl, ?_⟩
      · rw [CheckOut.st]
        rw [setInCache_localCache _ _ _ _
          (by rw [(recordAnalyticsHit_frame _ _ _ _ _ _).2.2.1]; exact hen)]
        rw [(recordAnalyticsHit_frame _ _ _ _ _ _).2.1,
          (recordAnalyticsHit_frame _ _ _ _ _ _).2.2.2.1]
        exact mapGet_mapSet_same _ _ _
      · rw [CheckOut.st]
        rw [(setInCache_frame _ _ _ _).2.2.1,
          (recordAnalyticsHit_frame _ _ _ _ _ _).2.2.1]
        exact hen
    case isFalse hflag =>
      rw [if_neg hflag]
      simp only [CheckOut.dec, Option.some_inj] at hd
      subst hd
      simp at hallow
  refine ⟨hB, hA, ?_, ?_⟩
  · intro d hd hdeny
    simp only [checkLimit, ne_eq, htu, not_false_eq_true, if_true,
      getFromCache, hen, hmiss, Bool.false_eq_true, htier, if_pos, hcfg,
      getSlowStartMultiplier, hss, noFail, mul_one, Int.floor_intCast,
      if_false, not_true_eq_false] at hd ⊢
    split at hd
    case isTrue hflag =>
      rw [if_pos hflag]
      simp only [CheckOut.dec, Option.some_inj] at hd
      subst hd
      simp at hdeny
    case isFalse hflag =>
      rw [if_neg hflag]
      simp only [CheckOut.st]
      rw [(logSecurityEvent_frame _ _).2.1,
        (recordAnalyticsHit_frame _ _ _ _ _ _).2.1]
  · intro d fail2 fail3 nowMs2 nowMs3 hd hallow h2 h3
    obtain ⟨hentry, hops, hcen⟩ := hA d hd hallow
    have ho2 := hB (checkLimit st store noFail nowMs userId endpoint tier
        countryCode cost).st
      (checkLimit st store noFail nowMs userId endpoint tier countryCode
        cost).store fail2 nowMs2 userId endpoint tier countryCode cost
      ⟨d, nowMs + st.cacheTTL⟩ htu hcen hentry (by simp; omega)
    refine ⟨ho2, ?_⟩
    rw [ho2]
    exact hB (checkLimit st store noFail nowMs userId endpoint tier
        countryCode cost).st
      (checkLimit st store noFail nowMs userId endpoint tier countryCode
        cost).store fail3 nowMs3 userId endpoint tier countryCode cost
      ⟨d, nowMs + st.cacheTTL⟩ htu hcen hentry (by simp; omega)


/-- An admission call populating the cache, for the C9 witness. -/
def c9AdmitCall : CheckOut :=
  checkLimit { defaultState with ssEnabled := false } [] noFail 0
    "ian" "/api/search" "free" "US" 1

/-- Witness for C9: after a concrete admission, a second identical
call within the TTL returns the same decision with no store traffic. -/
theorem C9_cache_round_trip_witness :
    checkLimit c9AdmitCall.st c9AdmitCall.store noFail 500 "ian"
      "/api/search" "free" "US" 1 =
      ⟨some ⟨true, .fin 19, 0, some 1⟩, c9AdmitCall.st,
        c9AdmitCall.store, []⟩ := by
  have hd : c9AdmitCall.dec = some ⟨true, .fin 19, 0, some 1⟩ := by
    simp [c9AdmitCall, checkLimit, defaultState, noFail, getFromCache,
      mapGet, tierExists, RATE_LIMITS, geoMultiplier, GEO_LIMITS,
      getSlowStartMultiplier, slowStartKey, storeGet, storeSetex,
      logSecurityEvent, luaRateLimit, recordAnalyticsHit, setInCache,
      mapSet, tokenKeyOf, lastRefillKeyOf, countKeyOf, cacheKeyOf,
      List.find?, List.filter, ssStageGo, jsToInt, min_def, max_def]
  have h := (C9_cache_round_trip { defaultState with ssEnabled := false } [] 0 "ian"
    "/api/search" "free" "US" 1 ⟨3600, 100, 20⟩ (by decide) (by decide)
    rfl rfl rfl).2.2.2 ⟨true, .fin 19, 0, some 1⟩ noFail noFail 500 500
    hd rfl (by decide) (by decide)
  exact h.1

/-- C10: `clearUserCache(identity)` deletes exactly the local-cache
entries whose key contains the identity as a substring — including
entries of other identities whose keys happen to contain it — and
leaves every other entry, and the rest of the engine state,
unchanged. -/
theorem C10_clear_user_cache (st : RLState) (userId : String) :
    (∀ p : String × CacheEntry,
      p ∈ (clearUserCache st userId).localCache ↔
        p ∈ st.localCache ∧ jsIncludes p.1 userId = false) ∧
    (clearUserCache st userId).analyticsHits = st.analyticsHits ∧
    (clearUserCache st userId).events = st.events := by
  refine ⟨?_, rfl, rfl⟩
  intro p
  rw [clearUserCache]
  simp [List.mem_filter]

/-- A three-entry cache exercising the substring semantics of
`clearUserCache`. -/
def c10Cache : RLState :=
  { defaultState with localCache :=
      [("check:user1:/api/search:free", ⟨⟨true, .fin 5, 0, some 1⟩, 100⟩),
       ("check:user12:/api/search:free", ⟨⟨true, .fin 7, 0, some 1⟩, 100⟩),
       ("check:bob:/api/search:free", ⟨⟨true, .fin 9, 0, some 1⟩, 100⟩)] }

/-- Witness for C10: clearing `user1` evicts the `user12` entry as
well (its key contains `user1`), while `bob`'s entry survives. -/
theorem C10_clear_user_cache_witness :
    ¬ ("check:user12:/api/search:free",
        (⟨⟨true, .fin 7, 0, some 1⟩, 100⟩ : CacheEntry)) ∈
      (clearUserCache c10Cache "user1").localCache ∧
    ("check:bob:/api/search:free",
        (⟨⟨true, .fin 9, 0, some 1⟩, 100⟩ : CacheEntry)) ∈
      (clearUserCache c10Cache "user1").localCache := by
  constructor
  · intro hmem
    have h := ((C10_clear_user_cache c10Cache "user1").1 _).mp hmem
    exact absurd h.2 (by decide)
  · exact ((C10_clear_user_cache c10Cache "user1").1 _).mpr
      ⟨by simp [c10Cache, defaultState], by decide⟩

end RateLimiterModel
